import Mathlib

/-!
Verification of the `caf` content-addressable file generator and verifier
(`caf/generator.py`, `caf/utils.py`, `caf/verifier.py`).

The embedding models bytes as natural numbers below 256, file contents as
`List Nat`, file and directory names as `List Char`, and the on-disk store
as an explicit structure.  `hashlib.sha1` is modelled by a byte-level
implementation of SHA-1 (FIPS 180): the incremental hashlib interface is a
pure function of the sequence of absorbed bytes, which the definitions
below thread explicitly.  The filesystem is modelled deterministically:
`os.listdir` returns the entries of a directory in their stored order, and
`os.rename` over an existing destination replaces it.
-/

namespace Caf

/-- Two to the 32, the word modulus of SHA-1 arithmetic. -/
def w32 : Nat := 4294967296

/-- Left rotation of a 32-bit word, truncated to 32 bits. -/
def rotl (n x : Nat) : Nat := ((x <<< n) ||| (x >>> (32 - n))) % w32

/-- The round function f of SHA-1 (FIPS 180), by round index. -/
def sha1F (t b c d : Nat) : Nat :=
  if t < 20 then (b &&& c) ||| ((b ^^^ 4294967295) &&& d)
  else if t < 40 then b ^^^ c ^^^ d
  else if t < 60 then (b &&& c) ||| ((b &&& d) ||| (c &&& d))
  else b ^^^ c ^^^ d

/-- The round constant K of SHA-1, by round index. -/
def sha1K (t : Nat) : Nat :=
  if t < 20 then 1518500249
  else if t < 40 then 1859775393
  else if t < 60 then 2400959708
  else 3395469782

/-- One SHA-1 round on the five-word state, consuming (round index, word). -/
def sha1Round (st : Nat × Nat × Nat × Nat × Nat) (tw : Nat × Nat) :
    Nat × Nat × Nat × Nat × Nat :=
  match st, tw with
  | (a, b, c, d, e), (t, w) =>
    ((rotl 5 a + sha1F t b c d + e + sha1K t + w) % w32, a, rotl 30 b, c, d)

/-- Big-endian 32-bit word from four bytes. -/
def beWord (b0 b1 b2 b3 : Nat) : Nat :=
  (b0 % 256) * 16777216 + (b1 % 256) * 65536 + (b2 % 256) * 256 + b3 % 256

/-- Split a 64-byte block into sixteen big-endian words. -/
def blockWords : List Nat → List Nat
  | b0 :: b1 :: b2 :: b3 :: rest => beWord b0 b1 b2 b3 :: blockWords rest
  | _ => []

/-- Message-schedule extension, accumulating words newest first. -/
def extendLoop : Nat → List Nat → List Nat
  | 0, acc => acc
  | n + 1, acc =>
      extendLoop n
        (rotl 1 ((acc.getD 2 0) ^^^ (acc.getD 7 0) ^^^ (acc.getD 13 0) ^^^ (acc.getD 15 0)) :: acc)

/-- The eighty scheduled words of a block from its sixteen words. -/
def scheduleWords (ws : List Nat) : List Nat := (extendLoop 64 ws.reverse).reverse

/-- Compress one 64-byte block into the running five-word state. -/
def processBlock (h : Nat × Nat × Nat × Nat × Nat) (block : List Nat) :
    Nat × Nat × Nat × Nat × Nat :=
  let ws := scheduleWords (blockWords block)
  match h, ((List.range 80).zip ws).foldl sha1Round h with
  | (h0, h1, h2, h3, h4), (a, b, c, d, e) =>
    ((h0 + a) % w32, (h1 + b) % w32, (h2 + c) % w32, (h3 + d) % w32, (h4 + e) % w32)

/-- SHA-1 padding: 0x80, zeros, and the 64-bit big-endian bit length. -/
def padBytes (msg : List Nat) : List Nat :=
  let L := msg.length
  let padLen := (119 - L % 64) % 64
  let bitLen := 8 * L
  msg ++ 128 :: List.replicate padLen 0 ++
    [bitLen / 72057594037927936 % 256, bitLen / 281474976710656 % 256,
     bitLen / 1099511627776 % 256, bitLen / 4294967296 % 256,
     bitLen / 16777216 % 256, bitLen / 65536 % 256,
     bitLen / 256 % 256, bitLen % 256]

/-- Split a byte list into 64-byte blocks; the fuel argument bounds the
number of blocks and is structurally consumed so the kernel can reduce it. -/
def toBlocksF : Nat → List Nat → List (List Nat)
  | 0, _ => []
  | _, [] => []
  | fuel + 1, b :: rest => ((b :: rest).take 64) :: toBlocksF fuel (rest.drop 63)

/-- Split a padded message into 64-byte blocks. -/
def toBlocks (l : List Nat) : List (List Nat) := toBlocksF l.length l

/-- The five 32-bit state words rendered as twenty big-endian bytes. -/
def digestBytes (h : Nat × Nat × Nat × Nat × Nat) : List Nat :=
  match h with
  | (h0, h1, h2, h3, h4) =>
    [h0 / 16777216 % 256, h0 / 65536 % 256, h0 / 256 % 256, h0 % 256,
     h1 / 16777216 % 256, h1 / 65536 % 256, h1 / 256 % 256, h1 % 256,
     h2 / 16777216 % 256, h2 / 65536 % 256, h2 / 256 % 256, h2 % 256,
     h3 / 16777216 % 256, h3 / 65536 % 256, h3 / 256 % 256, h3 % 256,
     h4 / 16777216 % 256, h4 / 65536 % 256, h4 / 256 % 256, h4 % 256]

/-- The SHA-1 digest (20 bytes) of a byte sequence.  Models the digest
hashlib computes over all bytes absorbed by a sha1 context. -/
def sha1 (msg : List Nat) : List Nat :=
  digestBytes ((toBlocks (padBytes msg)).foldl processBlock
    (1732584193, 4023233417, 2562383102, 271733878, 3285377520))

/-! ## Hex encoding (`binascii.hexlify`) -/

/-- The sixteen lowercase hex digit characters. -/
def hexChars : List Char := (List.range 16).map Nat.digitChar

/-- The hex digit character for a nibble. -/
def hexChar (n : Nat) : Char := hexChars.getD n '0'

/-- Models `binascii.hexlify(bs).decode('ascii')`: two lowercase hex digit
characters per byte. -/
def hexlify (bs : List Nat) : List Char :=
  bs.flatMap (fun b => [hexChar (b % 256 / 16), hexChar (b % 256 % 16)])

/-! ## Paths

File and directory names are `List Char`; a path is the `'/'`-separated
join of its components.  The generator and verifier always pass the same
root directory, so parent references are compared as shard triples
(first two hex characters, next two, remainder), which is exactly path
equality for names free of the separator, as all names drawn from a real
file system are. -/

/-- Models Python `str.split(os.sep)` (with `os.sep = '/'`). -/
def splitSep (sep : Char) : List Char → List (List Char)
  | [] => [[]]
  | c :: rest =>
    if c = sep then [] :: splitSep sep rest
    else
      match splitSep sep rest with
      | [] => [[c]]
      | h :: t => (c :: h) :: t

/-- Models Python `str.strip('.')`: removes leading and trailing dots. -/
def stripDots (l : List Char) : List Char :=
  ((l.dropWhile (fun c => c == '.')).reverse.dropWhile (fun c => c == '.')).reverse

/-- `caf.utils.file_path_to_hash` / the copy in `caf/generator.py`:
`''.join(filename.split(os.sep)).strip('.')`. -/
def file_path_to_hash (filename : List Char) : List Char :=
  stripDots (List.flatten (splitSep '/' filename))

/-- The sharded address of a 40-hex-character digest as a relative path
`ab/cd/<remaining>`, the split used by
`FileGenerator._move_to_final_location`. -/
def address_for (hex : List Char) : List Char :=
  hex.take 2 ++ '/' :: ((hex.drop 2).take 2 ++ '/' :: hex.drop 4)

/-- The shard triple (two directory levels and basename) of a hex digest
string, as built by `_move_to_final_location` and `_get_parent_file`. -/
def addrTriple (hex : List Char) : List Char × List Char × List Char :=
  (hex.take 2, (hex.drop 2).take 2, hex.drop 4)

/-- Full path of a stored file: `rootdir/ab/cd/<basename>`. -/
def joinPath (rootdir d1 d2 base : List Char) : List Char :=
  rootdir ++ '/' :: (d1 ++ '/' :: (d2 ++ '/' :: base))

/-- The root directory `'.'`, the default of the `caf verify` command. -/
def dotRoot : List Char := [ '.' ]

/-! ## The store -/

/-- A stored content file: two shard directory levels, basename, bytes. -/
structure CafFile where
  d1 : List Char
  d2 : List Char
  base : List Char
  content : List Nat
deriving DecidableEq

/-- The shard triple locating a file. -/
def fileTriple (f : CafFile) : List Char × List Char × List Char := (f.d1, f.d2, f.base)

/-- The on-disk state: content files (in creation/walk order), the names
under `.metadata/roots`, and the bytes of `.metadata/all`. -/
structure Store where
  files : List CafFile
  roots : List (List Char)
  allFile : List Nat
deriving DecidableEq

/-- The empty root directory. -/
def emptyStore : Store := { files := [], roots := [], allFile := [] }

/-- A file placed at the sharded address of `hex` with the given bytes. -/
def mkStoreFile (hex : List Char) (content : List Nat) : CafFile :=
  { d1 := hex.take 2, d2 := (hex.drop 2).take 2, base := hex.drop 4, content := content }

/-! ## The generator (`caf/generator.py`) -/

/-- The all-zero 20-byte sentinel `FileGenerator.ROOT_HASH`. -/
def rootHash : List Nat := List.replicate 20 0

/-- The next `n` bytes drawn from the random source starting at offset
`pos`; models consecutive `os.urandom` output as a byte stream. -/
def streamBytes (rand : Nat → Nat) (pos n : Nat) : List Nat :=
  (List.range n).map (fun i => rand (pos + i) % 256)

/-- Result of the write loop of `generate_single_file_link`: the bytes
absorbed by the sha1 context, the bytes written to the temp file, and the
next unread offset of the random source. -/
structure WriteRes where
  absorbed : List Nat
  written : List Nat
  nextPos : Nat
deriving DecidableEq

/-- The `while amount_remaining > 0` loop of `generate_single_file_link`:
each iteration draws `chunk_size = min(buffer_size, amount_remaining)`
random bytes, writes them and feeds them to the sha1 context.  The fuel
argument makes the recursion structural; with `1 ≤ bufferSize` (the code
always passes `2^20`) fuel `remaining` is exact.  With `bufferSize = 0`
the Python loop would not terminate; no claim concerns that case. -/
def writeLoop (bufferSize : Nat) (rand : Nat → Nat) :
    Nat → Nat → Nat → List Nat → List Nat → WriteRes
  | fuel, remaining, pos, absorbed, written =>
    if 0 < remaining then
      match fuel with
      | 0 => ⟨absorbed, written, pos⟩
      | fuel + 1 =>
        let c := min bufferSize remaining
        writeLoop bufferSize rand fuel (remaining - c) (pos + c)
          (absorbed ++ streamBytes rand pos c) (written ++ streamBytes rand pos c)
    else ⟨absorbed, written, pos⟩

/-- Result of `generate_single_file_link`: the temp-file content, the
returned `sha1.digest()`, and the next offset of the random source. -/
structure GenLinkRes where
  content : List Nat
  digest : List Nat
  nextPos : Nat
deriving DecidableEq

/-- `FileGenerator.generate_single_file_link`: starts the sha1 context on
`parent_hash`, writes `parent_hash`, then streams
`file_size - len(parent_hash)` random bytes in chunks of at most
`buffer_size`, feeding each chunk to the context. -/
def generate_single_file_link (parentHash : List Nat) (fileSize bufferSize : Nat)
    (rand : Nat → Nat) (pos : Nat) : GenLinkRes :=
  let rem := fileSize - parentHash.length
  let r := writeLoop bufferSize rand rem rem pos parentHash parentHash
  ⟨r.written, sha1 r.absorbed, r.nextPos⟩

/-- `FileGenerator._move_to_final_location`: `os.rename` of the temp file
onto the sharded address (replacing any existing file there). -/
def moveToFinalLocation (files : List CafFile) (hex : List Char) (content : List Nat) :
    List CafFile :=
  let f := mkStoreFile hex content
  if files.any (fun g => decide (fileTriple g = fileTriple f)) then
    files.map (fun g => if fileTriple g = fileTriple f then f else g)
  else files ++ [f]

/-- The digest over the concatenated names of the roots directory listing,
rendered as the ASCII bytes of its hex digest — the value
the root-marker writer persists to `.metadata/all`. -/
def aggregateOf (roots : List (List Char)) : List Nat :=
  (hexlify (sha1 (List.flatten (roots.map (fun r => r.map Char.toNat))))).map Char.toNat

/-- The root-marker writer of `FileGenerator` (modelled as `writeRootSha`): create the zero-length marker named
`name` (already existing is fine), then recompute and persist the
aggregate digest over the directory listing. -/
def writeRootSha (s : Store) (name : List Char) : Store :=
  let roots2 := if name ∈ s.roots then s.roots else s.roots ++ [name]
  { files := s.files, roots := roots2, allFile := aggregateOf roots2 }

/-- `n` below an optional bound (`None` meaning `float('inf')`). -/
def ltLim (n : Nat) : Option Nat → Bool
  | none => true
  | some m => decide (n < m)

/-- Loop state of `FileGenerator.generate_files`. -/
structure GenState where
  filesCreated : Nat
  diskUsed : Nat
  parentHash : List Nat
  lastHex : Option (List Char)
  files : List CafFile
  pos : Nat
deriving DecidableEq

/-- The `while` condition of `generate_files`:
`files_created < max_files and disk_space_bytes_used < max_disk_usage`. -/
def genCond (maxFiles maxDisk : Option Nat) (st : GenState) : Bool :=
  ltLim st.filesCreated maxFiles && ltLim st.diskUsed maxDisk

/-- One iteration of the `generate_files` loop: choose a size, generate a
link with the class constant `BUFFER_WRITE_SIZE = 2^20`, move it to its
sharded address, and update the counters and the parent hash. -/
def genStep (sizes rand : Nat → Nat) (st : GenState) : GenState :=
  let size := sizes st.filesCreated
  let r := generate_single_file_link st.parentHash size 1048576 rand st.pos
  let hex := hexlify r.digest
  { filesCreated := st.filesCreated + 1
    diskUsed := st.diskUsed + size
    parentHash := r.digest
    lastHex := some hex
    files := moveToFinalLocation st.files hex r.content
    pos := r.nextPos }

/-- The `generate_files` loop; `fuel` bounds the number of iterations the
model is willing to unfold (`none` means the loop was still running). -/
def genLoop (maxFiles maxDisk : Option Nat) (sizes rand : Nat → Nat) :
    Nat → GenState → Option GenState
  | 0, st => if genCond maxFiles maxDisk st then none else some st
  | fuel + 1, st =>
    if genCond maxFiles maxDisk st then
      genLoop maxFiles maxDisk sizes rand fuel (genStep sizes rand st)
    else some st

/-- The loop state on entry to `generate_files`. -/
def initGenState (files0 : List CafFile) : GenState :=
  { filesCreated := 0, diskUsed := 0, parentHash := rootHash
    lastHex := none, files := files0, pos := 0 }

/-- Outcome of a `generate_files` call: either the Python
`UnboundLocalError` on `ascii_hex_basename` (loop body never ran), with
the filesystem state at the raise, or normal completion. -/
inductive GenOutcome where
  | raisedUnboundLocal (fsAtRaise : Store)
  | finished (fs : Store)
deriving DecidableEq

/-- `FileGenerator.generate_files`: run the loop from the sentinel parent,
then write the root marker named by the last created file's hex digest.
If the loop body never ran, `ascii_hex_basename` is unbound and the final
final root-marker write raises. -/
def generate_files (maxFiles maxDisk : Option Nat) (sizes rand : Nat → Nat)
    (fuel : Nat) (s : Store) : Option GenOutcome :=
  match genLoop maxFiles maxDisk sizes rand fuel (initGenState s.files) with
  | none => none
  | some st =>
    match st.lastHex with
    | none => some (GenOutcome.raisedUnboundLocal { files := st.files, roots := s.roots, allFile := s.allFile })
    | some hex => some (GenOutcome.finished (writeRootSha { files := st.files, roots := s.roots, allFile := s.allFile } hex))

/-! ## The verifier (`FileVerifier` in `caf/generator.py`, identical in
`caf/verifier.py`) -/

/-- A corruption message written to stderr during verification. -/
inductive Finding where
  | checksumMismatch (path : List Char) (actual : List Char)
  | brokenLink (parentPath : List Char)
  | orphaned (path : List Char)
  | rootsTampered
deriving DecidableEq

/-- `FileVerifier._validate_checksum`: re-hash the file bytes and compare
with the join of the last three path components. -/
def validateChecksum (rootdir : List Char) (f : CafFile) : List Finding :=
  let expected := f.d1 ++ f.d2 ++ f.base
  let actual := hexlify (sha1 f.content)
  if actual = expected then []
  else [Finding.checksumMismatch (joinPath rootdir f.d1 f.d2 f.base) actual]

/-- `FileVerifier._get_parent_file`: read the first 20 bytes; the all-zero
sentinel means no parent, otherwise the sharded address of those bytes. -/
def getParentTriple (content : List Nat) : Option (List Char × List Char × List Char) :=
  let first20 := content.take 20
  if first20 = rootHash then none
  else some (addrTriple (hexlify first20))

/-- The walk body of `FileVerifier.verify_files` for one file: checksum
validation, then the parent-existence check for non-origin files. -/
def walkFileFindings (rootdir : List Char) (files : List CafFile) (f : CafFile) :
    List Finding :=
  validateChecksum rootdir f ++
    match getParentTriple f.content with
    | none => []
    | some t =>
      if files.any (fun g => decide (fileTriple g = t)) then []
      else [Finding.brokenLink (joinPath rootdir t.1 t.2.1 t.2.2)]

/-- The `referenced` set accumulated during the walk: the parent of every
walked file (`none` for origin files). -/
def referencedList (files : List CafFile) : List (Option (List Char × List Char × List Char)) :=
  files.map (fun f => getParentTriple f.content)

/-- `FileVerifier._verify_referenced_files`: a second walk reporting every
file that is neither referenced as a parent nor, after collapsing its full
path through `file_path_to_hash`, listed in the roots directory. -/
def orphanFindings (rootdir : List Char) (files : List CafFile) (roots : List (List Char)) :
    List Finding :=
  files.flatMap (fun f =>
    if some (fileTriple f) ∈ referencedList files
        ∨ file_path_to_hash (joinPath rootdir f.d1 f.d2 f.base) ∈ roots then []
    else [Finding.orphaned (joinPath rootdir f.d1 f.d2 f.base)])

/-- `FileVerifier._verify_known_roots`: recompute the aggregate digest
from the roots listing and compare with `.metadata/all`. -/
def verifyKnownRootsFindings (roots : List (List Char)) (allFile : List Nat) : List Finding :=
  if aggregateOf roots = allFile then [] else [Finding.rootsTampered]

/-- `FileVerifier.verify_files`: the ordered sequence of corruption
messages the verification pass emits.  The Python method returns `None`;
this list is its observable stderr output. -/
def verify_files (rootdir : List Char) (s : Store) : List Finding :=
  (s.files.flatMap (walkFileFindings rootdir s.files)) ++
    orphanFindings rootdir s.files s.roots ++
    verifyKnownRootsFindings s.roots s.allFile

/-- The `files_validated` counter of `verify_files`, incremented once per
walked non-metadata file and never returned or reported. -/
def filesValidatedCount (s : Store) : Nat := s.files.foldl (fun n _ => n + 1) 0

/-- Observable output of the `caf verify` command (`caf/caf.py`): the
emitted findings and whether the final success message is printed — which
the command does unconditionally, as `verify_files` never raises on a
finding. -/
structure CliVerifyRes where
  findings : List Finding
  successMessage : Bool
deriving DecidableEq

/-- The `verify` command of `caf/caf.py`. -/
def verifyCli (rootdir : List Char) (s : Store) : CliVerifyRes :=
  { findings := verify_files rootdir s, successMessage := true }

/-! ## Concrete scenario data used by witnesses and counterexamples -/

/-- A degenerate random source: every byte is zero. -/
def zeroRand : Nat → Nat := fun _ => 0

/-- The fixed size chooser of the `max_files=10, file_size=100` scenario. -/
def size100 : Nat → Nat := fun _ => 100

/-- The digests of the chain produced by a run with fixed file size 100:
each file is its 20-byte parent digest followed by 80 payload bytes. -/
def c5Digest (rand : Nat → Nat) : Nat → List Nat
  | 0 => rootHash
  | i + 1 => sha1 (c5Digest rand i ++ streamBytes rand (80 * i) 80)

/-- The i-th stored file of the fixed-size-100 chain. -/
def c5FileAt (rand : Nat → Nat) (i : Nat) : CafFile :=
  mkStoreFile (hexlify (c5Digest rand (i + 1))) (c5Digest rand i ++ streamBytes rand (80 * i) 80)

/-- The first `n` stored files of the fixed-size-100 chain. -/
def c5Files (rand : Nat → Nat) (n : Nat) : List CafFile := (List.range n).map (c5FileAt rand)

/-- The generator loop state after `k` iterations of the scenario run. -/
def c5State (rand : Nat → Nat) (k : Nat) : GenState :=
  { filesCreated := k, diskUsed := 100 * k, parentHash := c5Digest rand k
    lastHex := if k = 0 then none else some (hexlify (c5Digest rand k))
    files := c5Files rand k, pos := 80 * k }

/-- The store left by the scenario run `max_files=10, file_size=100`. -/
def c5ResultStore (rand : Nat → Nat) : Store :=
  writeRootSha { files := c5Files rand 10, roots := [], allFile := [] } (hexlify (c5Digest rand 10))

/-- Content of a small origin file: sentinel parent plus 10 payload bytes. -/
def cA : List Nat := List.replicate 20 0 ++ List.replicate 10 1

/-- Content of a child of `cA`: its digest plus 10 payload bytes. -/
def cB : List Nat := sha1 cA ++ List.replicate 10 2

/-- Content of a second, unreferenced origin file. -/
def cX : List Nat := List.replicate 20 0 ++ List.replicate 10 3

/-- The origin file of the two-link example chain, stored at its address. -/
def fileA : CafFile := mkStoreFile (hexlify (sha1 cA)) cA

/-- The tip of the two-link example chain, stored at its address. -/
def fileB : CafFile := mkStoreFile (hexlify (sha1 cB)) cB

/-- An origin file that nothing references and no root marker records. -/
def fileX : CafFile := mkStoreFile (hexlify (sha1 cX)) cX

/-- A clean store: a registered two-link chain whose origin `fileA` is
referenced by `fileB` but is itself absent from the roots listing. -/
def c6Store : Store :=
  { files := [fileA, fileB], roots := [hexlify (sha1 cB)]
    allFile := aggregateOf [hexlify (sha1 cB)] }

/-- A store with a single file whose bytes do not hash to its address. -/
def c7Store : Store :=
  { files := [mkStoreFile (hexlify (sha1 [1])) [2, 3]], roots := []
    allFile := aggregateOf [] }

/-- The clean two-link store plus the shard-correct but unreferenced and
unregistered file `fileX`. -/
def c8Store : Store :=
  { files := [fileA, fileB, fileX], roots := [hexlify (sha1 cB)]
    allFile := aggregateOf [hexlify (sha1 cB)] }

/-- A placeholder file for list lookups. -/
def defaultFile : CafFile := mkStoreFile [] []

/-- The store produced by a one-file generation run (size 30). -/
def c1RunStore : Store :=
  match generate_files (some 1) none (fun _ => 30) zeroRand 1 emptyStore with
  | some (GenOutcome.finished s) => s
  | _ => emptyStore

/-- The single file of `c1RunStore`. -/
def c1File : CafFile := c1RunStore.files.headD defaultFile

/-- Final loop state of a concrete two-file run bounded by 150 disk bytes. -/
def c4RunState : GenState :=
  (genLoop (some 2) (some 150) size100 zeroRand 5 (initGenState [])).getD (initGenState [])

/-- Final loop state of a concrete successful one-file run. -/
def c10RunState : GenState :=
  (genLoop (some 1) none (fun _ => 30) zeroRand 2 (initGenState [])).getD (initGenState [])

/-- The store produced by that successful one-file run. -/
def c10OkStore : Store :=
  match generate_files (some 1) none (fun _ => 30) zeroRand 2 emptyStore with
  | some (GenOutcome.finished s) => s
  | _ => emptyStore

/-! # Theorems -/

theorem digestBytes_length (h : Nat × Nat × Nat × Nat × Nat) :
    (digestBytes h).length = 20 := by
  obtain ⟨a, b, c, d, e⟩ := h; rfl

theorem sha1_length (msg : List Nat) : (sha1 msg).length = 20 :=
  digestBytes_length _

theorem hexChar_mem (n : Nat) : hexChar n ∈ hexChars := by
  unfold hexChar
  rcases Nat.lt_or_ge n 16 with h | h
  · interval_cases n <;> decide
  · rw [List.getD_eq_default _ _ (by simpa [hexChars] using h)]
    decide

theorem hexlify_mem {bs : List Nat} : ∀ c ∈ hexlify bs, c ∈ hexChars := by
  intro c hc
  simp only [hexlify, List.mem_flatMap] at hc
  obtain ⟨b, _, hb⟩ := hc
  simp only [List.mem_cons, List.mem_singleton, List.not_mem_nil, or_false] at hb
  rcases hb with rfl | rfl
  · exact hexChar_mem _
  · exact hexChar_mem _

theorem hexlify_length (bs : List Nat) : (hexlify bs).length = 2 * bs.length := by
  induction bs with
  | nil => rfl
  | cons b t ih =>
    simp only [hexlify, List.flatMap_cons] at ih ⊢
    simp [ih]
    omega

theorem addrTriple_recompose (h : List Char) :
    (addrTriple h).1 ++ (addrTriple h).2.1 ++ (addrTriple h).2.2 = h := by
  simp only [addrTriple, List.append_assoc]
  rw [show h.drop 4 = (h.drop 2).drop 2 by rw [List.drop_drop]]
  rw [List.take_append_drop, List.take_append_drop]

theorem addrTriple_inj {a b : List Char} (h : addrTriple a = addrTriple b) : a = b := by
  rw [← addrTriple_recompose a, h, addrTriple_recompose b]

theorem fileTriple_mkStoreFile (hex : List Char) (c : List Nat) :
    fileTriple (mkStoreFile hex c) = addrTriple hex := rfl

theorem splitSep_ne_nil (sep : Char) (l : List Char) : splitSep sep l ≠ [] := by
  cases l with
  | nil => simp [splitSep]
  | cons c rest =>
    simp only [splitSep]
    split
    · simp
    · split <;> simp

theorem flatten_splitSep_sep (sep : Char) (l : List Char) :
    (splitSep sep (sep :: l)).flatten = (splitSep sep l).flatten := by
  simp [splitSep]

theorem flatten_splitSep_ne {sep c : Char} (hc : ¬ c = sep) (l : List Char) :
    (splitSep sep (c :: l)).flatten = c :: (splitSep sep l).flatten := by
  simp only [splitSep, if_neg hc]
  cases h : splitSep sep l with
  | nil => exact absurd h (splitSep_ne_nil sep l)
  | cons hd tl => simp

theorem flatten_splitSep_append {sep : Char} {a : List Char}
    (ha : ∀ c ∈ a, ¬ c = sep) (l : List Char) :
    (splitSep sep (a ++ l)).flatten = a ++ (splitSep sep l).flatten := by
  induction a with
  | nil => simp
  | cons c t ih =>
    have hc : ¬ c = sep := ha c (by simp)
    rw [List.cons_append, flatten_splitSep_ne hc, ih (fun x hx => ha x (by simp [hx]))]
    rfl

theorem flatten_splitSep_self {sep : Char} {a : List Char}
    (ha : ∀ c ∈ a, ¬ c = sep) : (splitSep sep a).flatten = a := by
  have h := flatten_splitSep_append ha []
  simpa [splitSep] using h

theorem dropWhile_eq_self {p : Char → Bool} {l : List Char}
    (h : ∀ c ∈ l, p c = false) : l.dropWhile p = l := by
  cases l with
  | nil => rfl
  | cons c t => simp [List.dropWhile_cons, h c (by simp)]

theorem stripDots_eq_self {l : List Char} (h : ∀ c ∈ l, ¬ c = '.') :
    stripDots l = l := by
  have hb : ∀ c ∈ l, (c == '.') = false := fun c hc => by
    simpa using h c hc
  unfold stripDots
  rw [dropWhile_eq_self hb,
    dropWhile_eq_self (fun c hc => hb c (by simpa using hc)),
    List.reverse_reverse]

theorem stripDots_dot_cons {l : List Char} (h : ∀ c ∈ l, ¬ c = '.') :
    stripDots ('.' :: l) = l := by
  have hb : ∀ c ∈ l, (c == '.') = false := fun c hc => by
    simpa using h c hc
  unfold stripDots
  rw [List.dropWhile_cons]
  simp only [show (('.' : Char) == '.') = true from rfl, if_true]
  rw [dropWhile_eq_self hb,
    dropWhile_eq_self (fun c hc => hb c (by simpa using hc)),
    List.reverse_reverse]

theorem hexChars_no_sep : ∀ c ∈ hexChars, ¬ c = '/' := by decide

theorem hexChars_no_dot : ∀ c ∈ hexChars, ¬ c = '.' := by decide

theorem hash_of_dot_path {d1 d2 base : List Char}
    (h1 : ∀ c ∈ d1, c ∈ hexChars) (h2 : ∀ c ∈ d2, c ∈ hexChars)
    (h3 : ∀ c ∈ base, c ∈ hexChars) :
    file_path_to_hash (joinPath dotRoot d1 d2 base) = d1 ++ d2 ++ base := by
  have n1 : ∀ c ∈ d1, ¬ c = '/' := fun c hc => hexChars_no_sep c (h1 c hc)
  have n2 : ∀ c ∈ d2, ¬ c = '/' := fun c hc => hexChars_no_sep c (h2 c hc)
  have n3 : ∀ c ∈ base, ¬ c = '/' := fun c hc => hexChars_no_sep c (h3 c hc)
  unfold file_path_to_hash joinPath dotRoot
  rw [show ([ '.' ] ++ '/' :: (d1 ++ '/' :: (d2 ++ '/' :: base)))
      = '.' :: '/' :: (d1 ++ '/' :: (d2 ++ '/' :: base)) from rfl]
  rw [flatten_splitSep_ne (by decide), flatten_splitSep_sep,
    flatten_splitSep_append n1, flatten_splitSep_sep,
    flatten_splitSep_append n2, flatten_splitSep_sep,
    flatten_splitSep_self n3]
  have hdots : ∀ c ∈ d1 ++ (d2 ++ base), ¬ c = '.' := by
    intro c hc
    rcases List.mem_append.mp hc with hc1 | hc23
    · exact hexChars_no_dot c (h1 c hc1)
    · rcases List.mem_append.mp hc23 with hc2 | hc3
      · exact hexChars_no_dot c (h2 c hc2)
      · exact hexChars_no_dot c (h3 c hc3)
  rw [stripDots_dot_cons hdots]
  simp [List.append_assoc]

/-- Claim C2: for every valid 40-hex-character digest string, converting
it to its sharded path with the generator's address split and converting
that path back with `file_path_to_hash` yields the digest again. -/
theorem claim_C2 (h : List Char) (hlen : h.length = 40)
    (hhex : ∀ c ∈ h, c ∈ hexChars) :
    file_path_to_hash (address_for h) = h := by
  have t1 : ∀ c ∈ h.take 2, ¬ c = '/' := fun c hc =>
    hexChars_no_sep c (hhex c (List.mem_of_mem_take hc))
  have t2 : ∀ c ∈ (h.drop 2).take 2, ¬ c = '/' := fun c hc =>
    hexChars_no_sep c (hhex c (List.mem_of_mem_drop (List.mem_of_mem_take hc)))
  have t3 : ∀ c ∈ h.drop 4, ¬ c = '/' := fun c hc =>
    hexChars_no_sep c (hhex c (List.mem_of_mem_drop hc))
  unfold file_path_to_hash address_for
  rw [flatten_splitSep_append t1, flatten_splitSep_sep,
    flatten_splitSep_append t2, flatten_splitSep_sep,
    flatten_splitSep_self t3]
  rw [show h.take 2 ++ ((h.drop 2).take 2 ++ h.drop 4)
      = (addrTriple h).1 ++ (addrTriple h).2.1 ++ (addrTriple h).2.2 by
    simp [addrTriple, List.append_assoc]]
  rw [addrTriple_recompose]
  exact stripDots_eq_self (fun c hc => hexChars_no_dot c (hhex c hc))

/-- Witness for C2 at a concrete 20-byte digest. -/
theorem claim_C2_witness :
    file_path_to_hash (address_for (hexlify (List.replicate 20 171)))
      = hexlify (List.replicate 20 171) :=
  claim_C2 (hexlify (List.replicate 20 171)) (by decide) (by decide)

theorem streamBytes_length (rand : Nat → Nat) (pos n : Nat) :
    (streamBytes rand pos n).length = n := by
  simp [streamBytes]

theorem streamBytes_append (rand : Nat → Nat) (pos a b : Nat) :
    streamBytes rand pos a ++ streamBytes rand (pos + a) b
      = streamBytes rand pos (a + b) := by
  simp only [streamBytes, List.range_add, List.map_append, List.map_map]
  congr 1
  apply List.map_congr_left
  intro i hi
  simp [Function.comp, Nat.add_assoc]

theorem writeLoop_spec (bufferSize : Nat) (rand : Nat → Nat) (hb : 1 ≤ bufferSize) :
    ∀ fuel rem pos a w, rem ≤ fuel →
      writeLoop bufferSize rand fuel rem pos a w
        = ⟨a ++ streamBytes rand pos rem, w ++ streamBytes rand pos rem, pos + rem⟩ := by
  intro fuel
  induction fuel with
  | zero =>
    intro rem pos a w hrem
    have h0 : rem = 0 := by omega
    subst h0
    simp [writeLoop, streamBytes]
  | succ f ih =>
    intro rem pos a w hrem
    by_cases h0 : 0 < rem
    · rw [writeLoop]
      simp only [if_pos h0]
      have hc1 : 1 ≤ min bufferSize rem := le_min hb h0
      rw [ih (rem - min bufferSize rem) _ _ _ (by omega)]
      have hsum : min bufferSize rem + (rem - min bufferSize rem) = rem := by omega
      simp only [List.append_assoc, streamBytes_append, hsum, WriteRes.mk.injEq]
      refine ⟨trivial, trivial, by omega⟩
    · have h0 : rem = 0 := by omega
      subst h0
      simp [writeLoop, streamBytes]

theorem writeLoop_absorbed_eq_written (b : Nat) (rand : Nat → Nat) :
    ∀ fuel rem pos a,
      (writeLoop b rand fuel rem pos a a).absorbed
        = (writeLoop b rand fuel rem pos a a).written := by
  intro fuel
  induction fuel with
  | zero =>
    intro rem pos a
    rw [writeLoop]
    split <;> rfl
  | succ f ih =>
    intro rem pos a
    rw [writeLoop]
    split
    · exact ih _ _ _
    · rfl

theorem generate_single_file_link_spec (parentHash : List Nat)
    (fileSize bufferSize : Nat) (rand : Nat → Nat) (pos : Nat)
    (hb : 1 ≤ bufferSize) :
    generate_single_file_link parentHash fileSize bufferSize rand pos
      = ⟨parentHash ++ streamBytes rand pos (fileSize - parentHash.length),
         sha1 (parentHash ++ streamBytes rand pos (fileSize - parentHash.length)),
         pos + (fileSize - parentHash.length)⟩ := by
  unfold generate_single_file_link
  simp only []
  rw [writeLoop_spec bufferSize rand hb _ _ _ _ _ (le_refl _)]

theorem gen_link_digest (parentHash : List Nat) (fileSize bufferSize : Nat)
    (rand : Nat → Nat) (pos : Nat) :
    (generate_single_file_link parentHash fileSize bufferSize rand pos).digest
      = sha1 ((generate_single_file_link parentHash fileSize bufferSize rand pos).content) := by
  unfold generate_single_file_link
  simp only []
  rw [writeLoop_absorbed_eq_written]

/-- Claim C3: the digest computed incrementally over bounded-size chunks
by `generate_single_file_link` equals the one-pass SHA-1 of the whole
content `parent_hash ++ payload`, for every chunk size at least 1; in
particular the returned digest is the hash of the exact byte sequence
written to the temporary file. -/
theorem claim_C3 (parentHash : List Nat) (fileSize bufferSize pos : Nat)
    (rand : Nat → Nat) (hb : 1 ≤ bufferSize) :
    (generate_single_file_link parentHash fileSize bufferSize rand pos).digest
        = sha1 ((generate_single_file_link parentHash fileSize bufferSize rand pos).content)
      ∧ (generate_single_file_link parentHash fileSize bufferSize rand pos).content
        = parentHash ++ streamBytes rand pos (fileSize - parentHash.length)
      ∧ (generate_single_file_link parentHash fileSize bufferSize rand pos).digest
        = sha1 (parentHash ++ streamBytes rand pos (fileSize - parentHash.length)) := by
  rw [generate_single_file_link_spec _ _ _ _ _ hb]
  exact ⟨rfl, rfl, rfl⟩

/-- Witness for C3 at a concrete input with a chunk size (7) that does
not divide the payload length. -/
theorem claim_C3_witness :
    (generate_single_file_link (List.replicate 20 0) 25 7 zeroRand 0).digest
        = sha1 ((generate_single_file_link (List.replicate 20 0) 25 7 zeroRand 0).content)
      ∧ (generate_single_file_link (List.replicate 20 0) 25 7 zeroRand 0).content
        = List.replicate 20 0 ++ streamBytes zeroRand 0 (25 - (List.replicate 20 0).length)
      ∧ (generate_single_file_link (List.replicate 20 0) 25 7 zeroRand 0).digest
        = sha1 (List.replicate 20 0 ++ streamBytes zeroRand 0 (25 - (List.replicate 20 0).length)) :=
  claim_C3 (List.replicate 20 0) 25 7 0 zeroRand (by decide)

theorem genLoop_stop {mf md : Option Nat} {sizes rand : Nat → Nat} {st : GenState}
    (h : genCond mf md st = false) (fuel : Nat) :
    genLoop mf md sizes rand fuel st = some st := by
  cases fuel <;> simp [genLoop, h]

theorem genLoop_succ {mf md : Option Nat} {sizes rand : Nat → Nat} {st : GenState}
    (h : genCond mf md st = true) (fuel : Nat) :
    genLoop mf md sizes rand (fuel + 1) st
      = genLoop mf md sizes rand fuel (genStep sizes rand st) := by
  simp [genLoop, h]

theorem genLoop_inv {mf md : Option Nat} {sizes rand : Nat → Nat}
    (P : GenState → Prop)
    (hstep : ∀ st, genCond mf md st = true → P st → P (genStep sizes rand st)) :
    ∀ fuel st out, P st →
      genLoop mf md sizes rand fuel st = some out → P out := by
  intro fuel
  induction fuel with
  | zero =>
    intro st out hP hrun
    cases hc : genCond mf md st with
    | true => simp [genLoop, hc] at hrun
    | false =>
      rw [genLoop_stop hc] at hrun
      cases hrun
      exact hP
  | succ f ih =>
    intro st out hP hrun
    cases hc : genCond mf md st with
    | true =>
      rw [genLoop_succ hc] at hrun
      exact ih _ _ (hstep st hc hP) hrun
    | false =>
      rw [genLoop_stop hc] at hrun
      cases hrun
      exact hP

theorem genLoop_final_cond {mf md : Option Nat} {sizes rand : Nat → Nat} :
    ∀ fuel (st out : GenState),
      genLoop mf md sizes rand fuel st = some out → genCond mf md out = false := by
  intro fuel
  induction fuel with
  | zero =>
    intro st out hrun
    cases hc : genCond mf md st with
    | true => simp [genLoop, hc] at hrun
    | false =>
      rw [genLoop_stop hc] at hrun
      cases hrun
      exact hc
  | succ f ih =>
    intro st out hrun
    cases hc : genCond mf md st with
    | true =>
      rw [genLoop_succ hc] at hrun
      exact ih _ _ hrun
    | false =>
      rw [genLoop_stop hc] at hrun
      cases hrun
      exact hc

theorem genLoop_last {mf md : Option Nat} {sizes rand : Nat → Nat} :
    ∀ fuel (st out : GenState),
      genLoop mf md sizes rand fuel st = some out →
        out = st ∨ ∃ p, genCond mf md p = true ∧ out = genStep sizes rand p := by
  intro fuel
  induction fuel with
  | zero =>
    intro st out hrun
    cases hc : genCond mf md st with
    | true => simp [genLoop, hc] at hrun
    | false =>
      rw [genLoop_stop hc] at hrun
      cases hrun
      exact Or.inl rfl
  | succ f ih =>
    intro st out hrun
    cases hc : genCond mf md st with
    | true =>
      rw [genLoop_succ hc] at hrun
      rcases ih _ _ hrun with h | h
      · exact Or.inr ⟨st, hc, h⟩
      · exact Or.inr h
    | false =>
      rw [genLoop_stop hc] at hrun
      cases hrun
      exact Or.inl rfl

theorem mem_moveToFinalLocation {files : List CafFile} {hex : List Char}
    {c : List Nat} {f : CafFile}
    (h : f ∈ moveToFinalLocation files hex c) :
    f ∈ files ∨ f = mkStoreFile hex c := by
  unfold moveToFinalLocation at h
  simp only [] at h
  split at h
  · obtain ⟨g, hg, hfg⟩ := List.mem_map.mp h
    by_cases ht : fileTriple g = fileTriple (mkStoreFile hex c)
    · rw [if_pos ht] at hfg
      exact Or.inr hfg.symm
    · rw [if_neg ht] at hfg
      exact Or.inl (hfg ▸ hg)
  · rcases List.mem_append.mp h with h1 | h1
    · exact Or.inl h1
    · exact Or.inr (List.mem_singleton.mp h1)

/-- Claim C1: every file present after a completed generation run sits at
the sharded address (2/2/remaining hex characters of the 40-hex-character
digest) of the SHA-1 of its own full content, provided every file already
present beforehand did. -/
theorem claim_C1 (maxFiles maxDisk : Option Nat) (sizes rand : Nat → Nat)
    (fuel : Nat) (s0 s : Store)
    (h0 : ∀ f ∈ s0.files, fileTriple f = addrTriple (hexlify (sha1 f.content)))
    (hrun : generate_files maxFiles maxDisk sizes rand fuel s0
      = some (GenOutcome.finished s)) :
    ∀ f ∈ s.files,
      fileTriple f = addrTriple (hexlify (sha1 f.content))
        ∧ (hexlify (sha1 f.content)).length = 40 := by
  unfold generate_files at hrun
  cases hloop : genLoop maxFiles maxDisk sizes rand fuel (initGenState s0.files) with
  | none => rw [hloop] at hrun; cases hrun
  | some st =>
    rw [hloop] at hrun
    cases hlast : st.lastHex with
    | none => simp [hlast] at hrun
    | some hex =>
      simp only [hlast, Option.some.injEq] at hrun
      have hs : s = writeRootSha { files := st.files, roots := s0.roots, allFile := s0.allFile } hex := by
        injection hrun with h
        exact h.symm
      have hP : ∀ f ∈ st.files, fileTriple f = addrTriple (hexlify (sha1 f.content)) := by
        refine genLoop_inv
          (fun g => ∀ f ∈ g.files, fileTriple f = addrTriple (hexlify (sha1 f.content)))
          ?_ fuel (initGenState s0.files) st h0 hloop
        intro g hc hPg f hf
        have hfiles : (genStep sizes rand g).files
            = moveToFinalLocation g.files
                (hexlify (generate_single_file_link g.parentHash (sizes g.filesCreated) 1048576 rand g.pos).digest)
                (generate_single_file_link g.parentHash (sizes g.filesCreated) 1048576 rand g.pos).content := rfl
        rw [hfiles] at hf
        rcases mem_moveToFinalLocation hf with hmem | hnew
        · exact hPg f hmem
        · rw [hnew, fileTriple_mkStoreFile, gen_link_digest]
          rfl
      intro f hf
      have hsf : s.files = st.files := by rw [hs]; rfl
      rw [hsf] at hf
      exact ⟨hP f hf, by rw [hexlify_length, sha1_length]⟩

set_option maxRecDepth 40000 in
/-- Witness for C1: the single file of a concrete one-file run. -/
theorem claim_C1_witness :
    fileTriple c1File = addrTriple (hexlify (sha1 c1File.content))
      ∧ (hexlify (sha1 c1File.content)).length = 40 :=
  claim_C1 (some 1) none (fun _ => 30) zeroRand 1 emptyStore c1RunStore
    (by simp [emptyStore]) (by decide) c1File (by decide)

/-- Claim C4: the generation loop re-checks both stopping conditions
before each new file; when it terminates, the stop condition holds, at
most `max_files` files were created, the bytes counted before the last
file were strictly below `max_disk_usage`, and the total exceeds
`max_disk_usage` by less than one file's size. -/
theorem claim_C4 (maxFiles maxDisk : Option Nat) (sizes rand : Nat → Nat)
    (fuel : Nat) (files0 : List CafFile) (st : GenState)
    (hfin : maxFiles ≠ none ∨ maxDisk ≠ none)
    (hrun : genLoop maxFiles maxDisk sizes rand fuel (initGenState files0) = some st) :
    genCond maxFiles maxDisk st = false
      ∧ (∀ m, maxFiles = some m → st.filesCreated ≤ m)
      ∧ (∀ d, maxDisk = some d →
          st.filesCreated = 0
            ∨ (st.diskUsed - sizes (st.filesCreated - 1) < d
                ∧ st.diskUsed < d + sizes (st.filesCreated - 1))) := by
  refine ⟨genLoop_final_cond fuel _ st hrun, ?_, ?_⟩
  · intro m hm
    subst hm
    refine genLoop_inv (fun g => g.filesCreated ≤ m) ?_ fuel _ st
      (by simp [initGenState]) hrun
    intro g hcond hg
    have hlt : g.filesCreated < m := by
      simp [genCond, ltLim] at hcond
      exact hcond.1
    simpa [genStep] using hlt
  · intro d hd
    subst hd
    rcases genLoop_last fuel _ st hrun with h | ⟨p, hp, hstep⟩
    · left; rw [h]; rfl
    · right
      have hdisk : p.diskUsed < d := by
        simp [genCond, ltLim] at hp
        exact hp.2
      have h1 : st.diskUsed = p.diskUsed + sizes p.filesCreated := by rw [hstep]; rfl
      have h2 : st.filesCreated = p.filesCreated + 1 := by rw [hstep]; rfl
      rw [h1, h2]
      simp only [Nat.add_sub_cancel]
      omega

set_option maxRecDepth 40000 in
/-- Witness for C4 at a concrete run stopped by a soft disk limit. -/
theorem claim_C4_witness :
    genCond (some 2) (some 150) c4RunState = false
      ∧ c4RunState.filesCreated ≤ 2
      ∧ (c4RunState.filesCreated = 0
          ∨ (c4RunState.diskUsed - size100 (c4RunState.filesCreated - 1) < 150
              ∧ c4RunState.diskUsed < 150 + size100 (c4RunState.filesCreated - 1))) := by
  have h := claim_C4 (some 2) (some 150) size100 zeroRand 5 [] c4RunState
    (Or.inl (by simp)) (by decide)
  exact ⟨h.1, h.2.1 2 rfl, h.2.2 150 rfl⟩

/-- Claim C9: immediately after a root registration (`writeRootSha`), recomputing the
aggregate digest from the roots directory listing yields exactly the
persisted `.metadata/all` value, so the verifier's known-roots check
reports nothing. -/
theorem claim_C9 (s : Store) (name : List Char) :
    aggregateOf (writeRootSha s name).roots = (writeRootSha s name).allFile
      ∧ verifyKnownRootsFindings (writeRootSha s name).roots
          (writeRootSha s name).allFile = [] := by
  have h : aggregateOf (writeRootSha s name).roots = (writeRootSha s name).allFile := rfl
  exact ⟨h, by simp [verifyKnownRootsFindings, h]⟩

/-- Claim C10: if a stopping condition already holds before the first
file, `generate_files` raises (unbound `ascii_hex_basename`) leaving the
store untouched — no file, no root marker, no aggregate rewrite; and a
normal completion always has created at least one file and registers the
hex digest of the last file created. -/
theorem claim_C10 (maxFiles maxDisk : Option Nat) (sizes rand : Nat → Nat)
    (fuel : Nat) (s0 : Store) :
    (genCond maxFiles maxDisk (initGenState s0.files) = false →
        generate_files maxFiles maxDisk sizes rand fuel s0
          = some (GenOutcome.raisedUnboundLocal s0))
      ∧ (∀ s, generate_files maxFiles maxDisk sizes rand fuel s0
            = some (GenOutcome.finished s) →
          ∃ st, genLoop maxFiles maxDisk sizes rand fuel (initGenState s0.files) = some st
            ∧ 1 ≤ st.filesCreated
            ∧ st.lastHex = some (hexlify st.parentHash)
            ∧ s = writeRootSha
                { files := st.files, roots := s0.roots, allFile := s0.allFile }
                (hexlify st.parentHash)) := by
  constructor
  · intro hc
    unfold generate_files
    rw [genLoop_stop hc]
    rfl
  · intro s hrun
    unfold generate_files at hrun
    cases hloop : genLoop maxFiles maxDisk sizes rand fuel (initGenState s0.files) with
    | none => rw [hloop] at hrun; cases hrun
    | some st =>
      rw [hloop] at hrun
      have hinv : st.lastHex = none ∧ st.filesCreated = 0
          ∨ (st.lastHex = some (hexlify st.parentHash) ∧ 1 ≤ st.filesCreated) := by
        refine genLoop_inv
          (fun g => g.lastHex = none ∧ g.filesCreated = 0
            ∨ (g.lastHex = some (hexlify g.parentHash) ∧ 1 ≤ g.filesCreated))
          ?_ fuel _ st (Or.inl ⟨rfl, rfl⟩) hloop
        intro g hcond hg
        exact Or.inr ⟨rfl, by simp [genStep]⟩
      rcases hinv with ⟨hnone, hzero⟩ | ⟨hsome, hone⟩
      · simp [hnone] at hrun
      · simp only [hsome, Option.some.injEq] at hrun
        refine ⟨st, rfl, hone, hsome, ?_⟩
        injection hrun with h
        exact h.symm

set_option maxRecDepth 40000 in
/-- Witness for C10: `max_files = 0` raises with the store untouched, and
a successful one-file run registers the last file's digest. -/
theorem claim_C10_witness :
    generate_files (some 0) none size100 zeroRand 3 emptyStore
        = some (GenOutcome.raisedUnboundLocal emptyStore)
      ∧ 1 ≤ c10RunState.filesCreated
      ∧ c10RunState.lastHex = some (hexlify c10RunState.parentHash)
      ∧ c10OkStore = writeRootSha
          { files := c10RunState.files, roots := emptyStore.roots, allFile := emptyStore.allFile }
          (hexlify c10RunState.parentHash) := by
  refine ⟨(claim_C10 (some 0) none size100 zeroRand 3 emptyStore).1 (by decide), ?_⟩
  obtain ⟨st, hst, h1, h2, h3⟩ :=
    (claim_C10 (some 1) none (fun _ => 30) zeroRand 2 emptyStore).2 c10OkStore (by decide)
  have hg : genLoop (some 1) none (fun _ => 30) zeroRand 2 (initGenState emptyStore.files)
      = some c10RunState := by decide
  have hste : st = c10RunState := Option.some.inj (hst.symm.trans hg)
  rw [hste] at h1 h2 h3
  exact ⟨h1, h2, h3⟩

theorem foldl_succ_len (l : List CafFile) : ∀ n : Nat, l.foldl (fun n _ => n + 1) n = n + l.length := by
  induction l with
  | nil => intro n; simp
  | cons x xs ih =>
    intro n
    simp only [List.foldl_cons, List.length_cons, ih]
    omega

/-- Claim C7 (amended): verification emits its findings in walk order as
diagnostics; the `files_validated` counter it maintains equals the number
of non-metadata files walked but is not part of any returned report, and
the CLI prints the success message unconditionally — there is no pass/fail
flag derived from the findings. -/
theorem claim_C7 (rootdir : List Char) (s : Store) :
    (verifyCli rootdir s).successMessage = true
      ∧ (verifyCli rootdir s).findings = verify_files rootdir s
      ∧ filesValidatedCount s = s.files.length := by
  refine ⟨rfl, rfl, ?_⟩
  unfold filesValidatedCount
  simpa using foldl_succ_len s.files 0

set_option maxRecDepth 40000 in
/-- Counterexample for C7 as stated: on a store with a corrupt file the
run still ends in the unconditional success message while findings are
nonempty, so no pass-iff-no-findings flag exists. -/
theorem claim_C7_counterexample :
    (verifyCli dotRoot c7Store).findings ≠ []
      ∧ (verifyCli dotRoot c7Store).successMessage = true := by
  exact ⟨by decide, rfl⟩

/-- Claim C6 (amended): a stored file whose first 20 bytes equal the
sentinel is treated as parentless — the verifier performs no
roots-membership check for it and its walk step emits nothing beyond
checksum validation; no UnregisteredRoot finding exists in the code. -/
theorem claim_C6 (rootdir : List Char) (files : List CafFile) (f : CafFile)
    (h : f.content.take 20 = rootHash) :
    getParentTriple f.content = none
      ∧ walkFileFindings rootdir files f = validateChecksum rootdir f := by
  have hp : getParentTriple f.content = none := by simp [getParentTriple, h]
  refine ⟨hp, ?_⟩
  unfold walkFileFindings
  rw [hp]
  simp

set_option maxRecDepth 40000 in
/-- Witness for the amended C6 at the origin file of the example store. -/
theorem claim_C6_witness :
    getParentTriple fileA.content = none
      ∧ walkFileFindings dotRoot c6Store.files fileA = validateChecksum dotRoot fileA :=
  claim_C6 dotRoot c6Store.files fileA (by decide)

set_option maxRecDepth 40000 in
/-- Counterexample for C6 as stated: `fileA` is an origin (sentinel
parent) absent from the roots listing, yet verification of the otherwise
clean store reports nothing at all — no UnregisteredRoot finding. -/
theorem claim_C6_counterexample :
    fileA.content.take 20 = List.replicate 20 0
      ∧ (fileA.d1 ++ fileA.d2 ++ fileA.base) ∉ c6Store.roots
      ∧ verify_files dotRoot c6Store = [] := by
  exact ⟨by decide, by decide, by decide⟩

theorem orphaned_not_mem_walk (rootdir : List Char) (files : List CafFile)
    (f : CafFile) (p : List Char) :
    Finding.orphaned p ∉ walkFileFindings rootdir files f := by
  intro hmem
  unfold walkFileFindings at hmem
  rcases List.mem_append.mp hmem with h | h
  · unfold validateChecksum at h
    by_cases hc : hexlify (sha1 f.content) = f.d1 ++ f.d2 ++ f.base
    · simp [hc] at h
    · simp [hc] at h
  · cases hpt : getParentTriple f.content with
    | none => rw [hpt] at h; simp at h
    | some t =>
      rw [hpt] at h
      by_cases ha : (files.any fun g => decide (fileTriple g = t)) = true
      · simp [ha] at h
      · simp [ha] at h

theorem orphaned_not_mem_known (roots : List (List Char)) (allFile : List Nat)
    (p : List Char) :
    Finding.orphaned p ∉ verifyKnownRootsFindings roots allFile := by
  unfold verifyKnownRootsFindings
  split <;> simp

theorem mem_orphanFindings {rootdir : List Char} {files : List CafFile}
    {roots : List (List Char)} {p : List Char} :
    Finding.orphaned p ∈ orphanFindings rootdir files roots
      ↔ ∃ f ∈ files,
          ¬(some (fileTriple f) ∈ referencedList files
              ∨ file_path_to_hash (joinPath rootdir f.d1 f.d2 f.base) ∈ roots)
            ∧ p = joinPath rootdir f.d1 f.d2 f.base := by
  unfold orphanFindings
  rw [List.mem_flatMap]
  constructor
  · rintro ⟨f, hf, hmem⟩
    by_cases hcond : some (fileTriple f) ∈ referencedList files
        ∨ file_path_to_hash (joinPath rootdir f.d1 f.d2 f.base) ∈ roots
    · rw [if_pos hcond] at hmem
      simp at hmem
    · rw [if_neg hcond] at hmem
      simp only [List.mem_singleton] at hmem
      injection hmem with hp
      exact ⟨f, hf, hcond, hp⟩
  · rintro ⟨f, hf, hcond, rfl⟩
    refine ⟨f, hf, ?_⟩
    rw [if_neg hcond]
    simp

theorem append_sep_inj : ∀ {a b u v : List Char},
    (∀ c ∈ a, ¬ c = '/') → (∀ c ∈ b, ¬ c = '/') →
    a ++ '/' :: u = b ++ '/' :: v → a = b ∧ u = v := by
  intro a
  induction a with
  | nil =>
    intro b u v ha hb h
    cases b with
    | nil =>
      simp only [List.nil_append] at h
      exact ⟨rfl, (List.cons.inj h).2⟩
    | cons y ys =>
      simp only [List.nil_append, List.cons_append] at h
      obtain ⟨hy, _⟩ := List.cons.inj h
      exact absurd hy.symm (hb y (by simp))
  | cons x xs ih =>
    intro b u v ha hb h
    cases b with
    | nil =>
      simp only [List.cons_append, List.nil_append] at h
      obtain ⟨hx, _⟩ := List.cons.inj h
      exact absurd hx (ha x (by simp))
    | cons y ys =>
      simp only [List.cons_append] at h
      obtain ⟨hxy, hrest⟩ := List.cons.inj h
      obtain ⟨h1, h2⟩ := ih (fun c hc => ha c (by simp [hc]))
        (fun c hc => hb c (by simp [hc])) hrest
      exact ⟨by rw [hxy, h1], h2⟩

theorem joinPath_inj {r a b c a2 b2 c2 : List Char}
    (hna : ∀ x ∈ a, ¬ x = '/') (hnb : ∀ x ∈ b, ¬ x = '/')
    (hna2 : ∀ x ∈ a2, ¬ x = '/') (hnb2 : ∀ x ∈ b2, ¬ x = '/')
    (h : joinPath r a b c = joinPath r a2 b2 c2) :
    a = a2 ∧ b = b2 ∧ c = c2 := by
  unfold joinPath at h
  have h0 := List.append_cancel_left h
  obtain ⟨hh, h1⟩ := List.cons.inj h0
  obtain ⟨ha, hrest⟩ := append_sep_inj hna hna2 h1
  obtain ⟨hb, hc⟩ := append_sep_inj hnb hnb2 hrest
  exact ⟨ha, hb, hc⟩

/-- Claim C8: after the walk, an Orphaned finding is reported for a
stored file exactly when the file is neither referenced as a parent by
any stored file nor listed (by its hex hash) in the roots directory —
for stores with hex-named shard components, distinct addresses, and the
default root directory. -/
theorem claim_C8 (s : Store) (f : CafFile)
    (hmem : f ∈ s.files)
    (hnd : (s.files.map fileTriple).Nodup)
    (hhex : ∀ g ∈ s.files,
      (∀ c ∈ g.d1, c ∈ hexChars) ∧ (∀ c ∈ g.d2, c ∈ hexChars)
        ∧ (∀ c ∈ g.base, c ∈ hexChars)) :
    Finding.orphaned (joinPath dotRoot f.d1 f.d2 f.base) ∈ verify_files dotRoot s
      ↔ (some (fileTriple f) ∉ referencedList s.files
          ∧ f.d1 ++ f.d2 ++ f.base ∉ s.roots) := by
  obtain ⟨hf1, hf2, hf3⟩ := hhex f hmem
  have hfhash : file_path_to_hash (joinPath dotRoot f.d1 f.d2 f.base)
      = f.d1 ++ f.d2 ++ f.base := hash_of_dot_path hf1 hf2 hf3
  unfold verify_files
  constructor
  · intro h
    rcases List.mem_append.mp h with h12 | hk
    · rcases List.mem_append.mp h12 with hw | ho
      · obtain ⟨g, hg, hmemw⟩ := List.mem_flatMap.mp hw
        exact absurd hmemw (orphaned_not_mem_walk _ _ _ _)
      · obtain ⟨g, hg, hcond, hpath⟩ := mem_orphanFindings.mp ho
        obtain ⟨hg1, hg2, hg3⟩ := hhex g hg
        have htr := joinPath_inj
          (fun x hx => hexChars_no_sep x (hf1 x hx))
          (fun x hx => hexChars_no_sep x (hf2 x hx))
          (fun x hx => hexChars_no_sep x (hg1 x hx))
          (fun x hx => hexChars_no_sep x (hg2 x hx))
          hpath
        have htriple : fileTriple f = fileTriple g := by
          unfold fileTriple
          rw [htr.1, htr.2.1, htr.2.2]
        have hgf : f = g := List.inj_on_of_nodup_map hnd hmem hg htriple
        subst hgf
        push_neg at hcond
        obtain ⟨hc1, hc2⟩ := hcond
        rw [hfhash] at hc2
        exact ⟨hc1, hc2⟩
    · exact absurd hk (orphaned_not_mem_known _ _ _)
  · rintro ⟨hr, hroot⟩
    refine List.mem_append.mpr (Or.inl (List.mem_append.mpr (Or.inr ?_)))
    apply mem_orphanFindings.mpr
    refine ⟨f, hmem, ?_, rfl⟩
    intro hor
    rcases hor with h | h
    · exact hr h
    · rw [hfhash] at h
      exact hroot h

theorem verifyKnownRoots_writeRootSha (s : Store) (name : List Char) :
    verifyKnownRootsFindings (writeRootSha s name).roots
      (writeRootSha s name).allFile = [] := by
  have h : aggregateOf (writeRootSha s name).roots = (writeRootSha s name).allFile := rfl
  simp [verifyKnownRootsFindings, h]

theorem flatMap_nil_of {α β : Type} {l : List α} {f : α → List β}
    (h : ∀ x ∈ l, f x = []) : l.flatMap f = [] := by
  induction l with
  | nil => rfl
  | cons x xs ih =>
    rw [List.flatMap_cons, h x (by simp), ih (fun y hy => h y (by simp [hy]))]
    rfl

theorem c5Digest_length (rand : Nat → Nat) (k : Nat) :
    (c5Digest rand k).length = 20 := by
  cases k with
  | zero => rfl
  | succ j => exact sha1_length _

theorem c5_hex_ne {rand : Nat → Nat}
    (hnd : ((List.range 11).map (fun k => hexlify (c5Digest rand k))).Nodup)
    {i j : Nat} (hi : i < 11) (hj : j < 11) (hij : i ≠ j) :
    hexlify (c5Digest rand i) ≠ hexlify (c5Digest rand j) := by
  intro h
  exact hij (List.inj_on_of_nodup_map hnd (List.mem_range.mpr hi) (List.mem_range.mpr hj) h)

theorem moveToFinalLocation_append {files : List CafFile} {hex : List Char}
    {c : List Nat}
    (h : ∀ g ∈ files, ¬ fileTriple g = fileTriple (mkStoreFile hex c)) :
    moveToFinalLocation files hex c = files ++ [mkStoreFile hex c] := by
  unfold moveToFinalLocation
  simp only []
  rw [if_neg]
  intro hany
  obtain ⟨g, hg, hdec⟩ := List.any_eq_true.mp hany
  exact h g hg (of_decide_eq_true hdec)

theorem validateChecksum_mk (rootdir : List Char) (c : List Nat) :
    validateChecksum rootdir (mkStoreFile (hexlify (sha1 c)) c) = [] := by
  unfold validateChecksum mkStoreFile
  simp only []
  rw [if_pos]
  exact (addrTriple_recompose (hexlify (sha1 c))).symm

theorem take20_c5Content (rand : Nat → Nat) (i : Nat) :
    ((c5Digest rand i ++ streamBytes rand (80 * i) 80).take 20) = c5Digest rand i := by
  rw [show (20 : Nat) = (c5Digest rand i).length from (c5Digest_length rand i).symm]
  exact List.take_left _ _

theorem c5_genStep (rand : Nat → Nat)
    (hnd : ((List.range 11).map (fun k => hexlify (c5Digest rand k))).Nodup)
    (k : Nat) (hk : k < 10) :
    genStep size100 rand (c5State rand k) = c5State rand (k + 1) := by
  have h80 : 100 - (c5Digest rand k).length = 80 := by
    rw [c5Digest_length rand k]
  unfold genStep
  simp only [c5State, size100]
  rw [generate_single_file_link_spec _ _ _ _ _ (by norm_num)]
  simp only [h80]
  have hmove : moveToFinalLocation (c5Files rand k)
      (hexlify (sha1 (c5Digest rand k ++ streamBytes rand (80 * k) 80)))
      (c5Digest rand k ++ streamBytes rand (80 * k) 80)
      = c5Files rand (k + 1) := by
    rw [moveToFinalLocation_append]
    · rw [show mkStoreFile (hexlify (sha1 (c5Digest rand k ++ streamBytes rand (80 * k) 80)))
          (c5Digest rand k ++ streamBytes rand (80 * k) 80) = c5FileAt rand k from rfl]
      unfold c5Files
      rw [List.range_succ, List.map_append]
      rfl
    · intro g hg ht
      obtain ⟨i, hi, hgi⟩ := List.mem_map.mp hg
      have hi10 : i < k := List.mem_range.mp hi
      rw [← hgi] at ht
      have hhx : hexlify (c5Digest rand (i + 1))
          = hexlify (sha1 (c5Digest rand k ++ streamBytes rand (80 * k) 80)) :=
        addrTriple_inj ht
      rw [show sha1 (c5Digest rand k ++ streamBytes rand (80 * k) 80)
          = c5Digest rand (k + 1) from rfl] at hhx
      exact c5_hex_ne hnd (by omega) (by omega) (by omega) hhx
  rw [hmove]
  have e1 : 100 * k + 100 = 100 * (k + 1) := by ring
  have e2 : 80 * k + 80 = 80 * (k + 1) := by ring
  rw [e1, e2]
  rfl

theorem c5_loop (rand : Nat → Nat)
    (hnd : ((List.range 11).map (fun k => hexlify (c5Digest rand k))).Nodup) :
    ∀ j k, k + j = 10 →
      genLoop (some 10) none size100 rand j (c5State rand k)
        = some (c5State rand 10) := by
  intro j
  induction j with
  | zero =>
    intro k hk
    have h10 : k = 10 := by omega
    subst h10
    apply genLoop_stop
    simp [genCond, ltLim, c5State]
  | succ jj ih =>
    intro k hk
    have hck : genCond (some 10) none (c5State rand k) = true := by
      simp [genCond, ltLim, c5State]
      omega
    rw [genLoop_succ hck, c5_genStep rand hnd k (by omega)]
    exact ih (k + 1) (by omega)

theorem c5_run (rand : Nat → Nat)
    (hnd : ((List.range 11).map (fun k => hexlify (c5Digest rand k))).Nodup) :
    generate_files (some 10) none size100 rand 10 emptyStore
      = some (GenOutcome.finished (c5ResultStore rand)) := by
  unfold generate_files
  have h0 : initGenState emptyStore.files = c5State rand 0 := rfl
  rw [h0, c5_loop rand hnd 10 0 (by omega)]
  have hlast : (c5State rand 10).lastHex = some (hexlify (c5Digest rand 10)) := by
    simp [c5State]
  simp only [hlast]
  rfl

theorem c5_mem_files {rand : Nat → Nat} {f : CafFile} (hf : f ∈ c5Files rand 10) :
    ∃ i, i < 10 ∧ f = c5FileAt rand i := by
  obtain ⟨i, hi, hfi⟩ := List.mem_map.mp hf
  exact ⟨i, List.mem_range.mp hi, hfi.symm⟩

theorem c5_getParent_succ (rand : Nat → Nat)
    (hnd : ((List.range 11).map (fun k => hexlify (c5Digest rand k))).Nodup)
    {j : Nat} (hj : j + 1 < 11) :
    getParentTriple (c5FileAt rand (j + 1)).content
      = some (addrTriple (hexlify (c5Digest rand (j + 1)))) := by
  unfold getParentTriple c5FileAt mkStoreFile
  simp only [take20_c5Content]
  rw [if_neg]
  intro hzero
  have : hexlify (c5Digest rand (j + 1)) = hexlify (c5Digest rand 0) := by
    rw [show c5Digest rand 0 = rootHash from rfl, hzero]
  exact c5_hex_ne hnd hj (by omega) (by omega) this

theorem c5_walk_nil (rand : Nat → Nat)
    (hnd : ((List.range 11).map (fun k => hexlify (c5Digest rand k))).Nodup)
    {i : Nat} (hi : i < 10) :
    walkFileFindings dotRoot (c5Files rand 10) (c5FileAt rand i) = [] := by
  unfold walkFileFindings
  have hcheck : validateChecksum dotRoot (c5FileAt rand i) = [] := by
    rw [show c5FileAt rand i
        = mkStoreFile (hexlify (sha1 (c5Digest rand i ++ streamBytes rand (80 * i) 80)))
            (c5Digest rand i ++ streamBytes rand (80 * i) 80) from rfl]
    exact validateChecksum_mk _ _
  rw [hcheck]
  cases i with
  | zero =>
    have hp : getParentTriple (c5FileAt rand 0).content = none := by
      unfold getParentTriple c5FileAt mkStoreFile
      simp only [take20_c5Content]
      rw [if_pos (show c5Digest rand 0 = rootHash from rfl)]
    rw [hp]
    rfl
  | succ j =>
    rw [c5_getParent_succ rand hnd (show j + 1 < 11 by omega)]
    simp only []
    have hany : ((c5Files rand 10).any fun g =>
        decide (fileTriple g = addrTriple (hexlify (c5Digest rand (j + 1))))) = true := by
      apply List.any_eq_true.mpr
      refine ⟨c5FileAt rand j, ?_, ?_⟩
      · exact List.mem_map.mpr ⟨j, List.mem_range.mpr (by omega), rfl⟩
      · exact decide_eq_true rfl
    rw [hany]
    simp

theorem c5_hexmem (rand : Nat → Nat) (k : Nat) :
    (∀ c ∈ (hexlify (c5Digest rand k)).take 2, c ∈ hexChars)
      ∧ (∀ c ∈ ((hexlify (c5Digest rand k)).drop 2).take 2, c ∈ hexChars)
      ∧ (∀ c ∈ (hexlify (c5Digest rand k)).drop 4, c ∈ hexChars) :=
  ⟨fun c hc => hexlify_mem c (List.mem_of_mem_take hc),
   fun c hc => hexlify_mem c (List.mem_of_mem_drop (List.mem_of_mem_take hc)),
   fun c hc => hexlify_mem c (List.mem_of_mem_drop hc)⟩

theorem c5_path_hash (rand : Nat → Nat) (k : Nat) :
    file_path_to_hash (joinPath dotRoot (c5FileAt rand k).d1 (c5FileAt rand k).d2
        (c5FileAt rand k).base)
      = hexlify (c5Digest rand (k + 1)) := by
  obtain ⟨ha, hb, hc⟩ := c5_hexmem rand (k + 1)
  calc file_path_to_hash (joinPath dotRoot (c5FileAt rand k).d1 (c5FileAt rand k).d2
          (c5FileAt rand k).base)
      = file_path_to_hash (joinPath dotRoot
          ((hexlify (c5Digest rand (k + 1))).take 2)
          (((hexlify (c5Digest rand (k + 1))).drop 2).take 2)
          ((hexlify (c5Digest rand (k + 1))).drop 4)) := rfl
    _ = (hexlify (c5Digest rand (k + 1))).take 2
          ++ (((hexlify (c5Digest rand (k + 1))).drop 2).take 2
            ++ (hexlify (c5Digest rand (k + 1))).drop 4) := by
        rw [hash_of_dot_path ha hb hc]
        simp [List.append_assoc]
    _ = hexlify (c5Digest rand (k + 1)) :=
        addrTriple_recompose (hexlify (c5Digest rand (k + 1)))

theorem c5_orphan_nil (rand : Nat → Nat)
    (hnd : ((List.range 11).map (fun k => hexlify (c5Digest rand k))).Nodup) :
    orphanFindings dotRoot (c5Files rand 10) [hexlify (c5Digest rand 10)] = [] := by
  unfold orphanFindings
  apply flatMap_nil_of
  intro f hf
  obtain ⟨i, hi, hfi⟩ := c5_mem_files hf
  subst hfi
  rw [if_pos]
  by_cases hlast : i + 1 < 10
  · left
    have hparent := c5_getParent_succ rand hnd (show i + 1 < 11 by omega)
    unfold referencedList
    apply List.mem_map.mpr
    exact ⟨c5FileAt rand (i + 1),
      List.mem_map.mpr ⟨i + 1, List.mem_range.mpr hlast, rfl⟩, hparent⟩
  · right
    have hi9 : i = 9 := by omega
    subst hi9
    rw [show (10 : Nat) = 9 + 1 from rfl, c5_path_hash rand 9]
    simp

theorem c5_verify (rand : Nat → Nat)
    (hnd : ((List.range 11).map (fun k => hexlify (c5Digest rand k))).Nodup) :
    verify_files dotRoot (c5ResultStore rand) = [] := by
  have hfiles : (c5ResultStore rand).files = c5Files rand 10 := rfl
  have hroots : (c5ResultStore rand).roots = [hexlify (c5Digest rand 10)] := by
    simp [c5ResultStore, writeRootSha]
  unfold verify_files
  rw [hfiles, hroots]
  rw [flatMap_nil_of (fun f hf => by
    obtain ⟨i, hi, hfi⟩ := c5_mem_files hf
    subst hfi
    exact c5_walk_nil rand hnd hi)]
  rw [c5_orphan_nil rand hnd]
  have hk := verifyKnownRoots_writeRootSha
    { files := c5Files rand 10, roots := [], allFile := [] }
    (hexlify (c5Digest rand 10))
  have hroots2 : (c5ResultStore rand).allFile
      = aggregateOf [hexlify (c5Digest rand 10)] := by
    simp [c5ResultStore, writeRootSha]
  rw [hroots2]
  have : verifyKnownRootsFindings [hexlify (c5Digest rand 10)]
      (aggregateOf [hexlify (c5Digest rand 10)]) = [] := by
    simp [verifyKnownRootsFindings]
  rw [this]
  rfl

/-- Claim C5: with `max_files = 10` and the fixed size chooser returning
100, a generation run (whose chain of digests is collision-free) creates
exactly 10 files, each exactly 100 bytes — 20 bytes of parent digest plus
80 payload bytes — totalling 1000 bytes, and the verifier reports zero
findings on the resulting store. -/
theorem claim_C5 (rand : Nat → Nat)
    (hnd : ((List.range 11).map (fun k => hexlify (c5Digest rand k))).Nodup) :
    generate_files (some 10) none size100 rand 10 emptyStore
        = some (GenOutcome.finished (c5ResultStore rand))
      ∧ (c5ResultStore rand).files.length = 10
      ∧ (∀ f ∈ (c5ResultStore rand).files, ∃ i, i < 10
          ∧ f.content = c5Digest rand i ++ streamBytes rand (80 * i) 80
          ∧ (c5Digest rand i).length = 20
          ∧ f.content.length = 100)
      ∧ ((c5ResultStore rand).files.map (fun f => f.content.length)).sum = 1000
      ∧ verify_files dotRoot (c5ResultStore rand) = [] := by
  have hfiles : (c5ResultStore rand).files = c5Files rand 10 := rfl
  refine ⟨c5_run rand hnd, ?_, ?_, ?_, c5_verify rand hnd⟩
  · rw [hfiles]
    simp [c5Files]
  · intro f hf
    rw [hfiles] at hf
    obtain ⟨i, hi, hfi⟩ := c5_mem_files hf
    subst hfi
    refine ⟨i, hi, rfl, c5Digest_length rand i, ?_⟩
    rw [show (c5FileAt rand i).content
        = c5Digest rand i ++ streamBytes rand (80 * i) 80 from rfl]
    rw [List.length_append, c5Digest_length, streamBytes_length]
  · rw [hfiles]
    have hlen10 : ((c5Files rand 10).map (fun f => f.content.length)).length = 10 := by
      simp [c5Files]
    have hmem : ∀ b ∈ (c5Files rand 10).map (fun f => f.content.length), b = 100 := by
      intro b hb
      obtain ⟨f, hf, hfb⟩ := List.mem_map.mp hb
      obtain ⟨i, hi, hfi⟩ := c5_mem_files hf
      subst hfi
      rw [← hfb]
      rw [show (c5FileAt rand i).content
          = c5Digest rand i ++ streamBytes rand (80 * i) 80 from rfl]
      rw [List.length_append, c5Digest_length, streamBytes_length]
    have hrep := List.eq_replicate_of_mem hmem
    rw [hrep, hlen10, List.sum_replicate, smul_eq_mul]

theorem streamBytes_zeroRand (pos n : Nat) :
    streamBytes zeroRand pos n = List.replicate n 0 := by
  induction n with
  | zero => rfl
  | succ m ih =>
    have h : streamBytes zeroRand pos (m + 1)
        = streamBytes zeroRand pos m ++ [0] := by
      unfold streamBytes
      rw [List.range_succ, List.map_append]
      rfl
    rw [h, ih, ← List.replicate_succ']

set_option maxRecDepth 10000 in
theorem c5z1 : c5Digest zeroRand 1
    = [237, 74, 119, 209, 181, 106, 17, 137, 56, 120, 143, 197, 48, 55, 117, 155, 108, 80, 30, 61] := by
  rw [show c5Digest zeroRand 1
      = sha1 (c5Digest zeroRand 0 ++ streamBytes zeroRand (80 * 0) 80) from rfl,
    show c5Digest zeroRand 0 = rootHash from rfl, streamBytes_zeroRand]
  decide

set_option maxRecDepth 10000 in
theorem c5z2 : c5Digest zeroRand 2
    = [174, 217, 174, 90, 88, 164, 34, 138, 134, 16, 64, 67, 240, 196, 157, 93, 76, 64, 74, 1] := by
  rw [show c5Digest zeroRand 2
      = sha1 (c5Digest zeroRand 1 ++ streamBytes zeroRand (80 * 1) 80) from rfl,
    c5z1, streamBytes_zeroRand]
  decide

set_option maxRecDepth 10000 in
theorem c5z3 : c5Digest zeroRand 3
    = [229, 56, 101, 50, 216, 72, 204, 48, 37, 29, 18, 59, 214, 126, 201, 65, 70, 46, 65, 20] := by
  rw [show c5Digest zeroRand 3
      = sha1 (c5Digest zeroRand 2 ++ streamBytes zeroRand (80 * 2) 80) from rfl,
    c5z2, streamBytes_zeroRand]
  decide

set_option maxRecDepth 10000 in
theorem c5z4 : c5Digest zeroRand 4
    = [151, 80, 137, 93, 17, 165, 71, 151, 46, 115, 102, 126, 232, 103, 136, 169, 33, 199, 107, 174] := by
  rw [show c5Digest zeroRand 4
      = sha1 (c5Digest zeroRand 3 ++ streamBytes zeroRand (80 * 3) 80) from rfl,
    c5z3, streamBytes_zeroRand]
  decide

set_option maxRecDepth 10000 in
theorem c5z5 : c5Digest zeroRand 5
    = [198, 219, 229, 17, 193, 15, 241, 14, 112, 49, 72, 103, 234, 7, 1, 16, 69, 180, 47, 125] := by
  rw [show c5Digest zeroRand 5
      = sha1 (c5Digest zeroRand 4 ++ streamBytes zeroRand (80 * 4) 80) from rfl,
    c5z4, streamBytes_zeroRand]
  decide

set_option maxRecDepth 10000 in
theorem c5z6 : c5Digest zeroRand 6
    = [46, 161, 189, 118, 13, 2, 76, 23, 210, 70, 154, 31, 196, 220, 4, 205, 130, 16, 202, 239] := by
  rw [show c5Digest zeroRand 6
      = sha1 (c5Digest zeroRand 5 ++ streamBytes zeroRand (80 * 5) 80) from rfl,
    c5z5, streamBytes_zeroRand]
  decide

set_option maxRecDepth 10000 in
theorem c5z7 : c5Digest zeroRand 7
    = [41, 249, 211, 120, 29, 10, 72, 171, 206, 164, 176, 97, 146, 158, 18, 204, 137, 182, 45, 176] := by
  rw [show c5Digest zeroRand 7
      = sha1 (c5Digest zeroRand 6 ++ streamBytes zeroRand (80 * 6) 80) from rfl,
    c5z6, streamBytes_zeroRand]
  decide

set_option maxRecDepth 10000 in
theorem c5z8 : c5Digest zeroRand 8
    = [73, 183, 212, 137, 210, 236, 231, 134, 112, 151, 43, 224, 234, 1, 253, 167, 151, 174, 224, 31] := by
  rw [show c5Digest zeroRand 8
      = sha1 (c5Digest zeroRand 7 ++ streamBytes zeroRand (80 * 7) 80) from rfl,
    c5z7, streamBytes_zeroRand]
  decide

set_option maxRecDepth 10000 in
theorem c5z9 : c5Digest zeroRand 9
    = [216, 38, 223, 44, 43, 247, 204, 56, 13, 170, 135, 203, 142, 56, 243, 29, 60, 101, 100, 204] := by
  rw [show c5Digest zeroRand 9
      = sha1 (c5Digest zeroRand 8 ++ streamBytes zeroRand (80 * 8) 80) from rfl,
    c5z8, streamBytes_zeroRand]
  decide

set_option maxRecDepth 10000 in
theorem c5z10 : c5Digest zeroRand 10
    = [58, 236, 187, 133, 9, 134, 104, 253, 110, 230, 69, 169, 88, 128, 82, 19, 58, 135, 13, 14] := by
  rw [show c5Digest zeroRand 10
      = sha1 (c5Digest zeroRand 9 ++ streamBytes zeroRand (80 * 9) 80) from rfl,
    c5z9, streamBytes_zeroRand]
  decide

set_option maxRecDepth 10000 in
theorem c5zNodup :
    ((List.range 11).map (fun k => hexlify (c5Digest zeroRand k))).Nodup := by
  rw [show List.range 11 = [0, 1, 2, 3, 4, 5, 6, 7, 8, 9, 10] from rfl]
  simp only [List.map_cons, List.map_nil,
    show c5Digest zeroRand 0 = rootHash from rfl,
    c5z1, c5z2, c5z3, c5z4, c5z5, c5z6, c5z7, c5z8, c5z9, c5z10]
  decide

/-- Witness for C5: the scenario run with the all-zero payload source. -/
theorem claim_C5_witness :
    generate_files (some 10) none size100 zeroRand 10 emptyStore
        = some (GenOutcome.finished (c5ResultStore zeroRand))
      ∧ (c5ResultStore zeroRand).files.length = 10
      ∧ ((c5ResultStore zeroRand).files.map (fun f => f.content.length)).sum = 1000
      ∧ verify_files dotRoot (c5ResultStore zeroRand) = [] := by
  obtain ⟨h1, h2, h3, h4, h5⟩ := claim_C5 zeroRand c5zNodup
  exact ⟨h1, h2, h4, h5⟩

set_option maxRecDepth 40000 in
/-- Witness for C8: inserting the unreferenced, unregistered but
shard-correct `fileX` into the clean two-link store yields an Orphaned
finding for that file, and that finding is the only one. -/
theorem claim_C8_witness :
    Finding.orphaned (joinPath dotRoot fileX.d1 fileX.d2 fileX.base)
        ∈ verify_files dotRoot c8Store
      ∧ verify_files dotRoot c8Store
        = [Finding.orphaned (joinPath dotRoot fileX.d1 fileX.d2 fileX.base)] := by
  constructor
  · exact (claim_C8 c8Store fileX (by decide) (by decide) (by decide)).mpr (by decide)
  · decide

end Caf
